import Mathlib

/-!
Shallow embedding of `arona_resource_manager.py`: the hardware resource pool
(`HardwareStatus`, `ResourceManager`), the task model (`TaskPriority`, `AGI_Task`)
and the scheduler (`RealTimeScheduler`), together with proofs of the claims
about them.

Modelling conventions:
* Python floats are modelled as rationals (`ℚ`); every constant appearing in the
  source and in the claims is exactly representable, so no rounding behaviour is
  at stake in any claim.
* The `self.hardware` dict of `ResourceManager` has exactly the keys
  `"CPU"`, `"GPU"`, `"RAM"` for its whole lifetime (it is built with those three
  keys on lines 113-117 and no key is ever added or removed), so it is embedded
  as a structure with three fields plus `lookup`/`setHW` functions realising
  dict access.
* `task.resource_request` is a Python dict built on lines 90-94; it is embedded
  as an association list (insertion-ordered, unique keys; uniqueness of keys is
  an explicit hypothesis `taskOk` where a proof needs it).
* Wall-clock timestamps (`creation_time`, `start_time`) are not modelled: they
  feed only the randomized/elapsed-time completion heuristic on line 221, which
  is modelled as an explicit completion oracle passed to `dispatch_tasks`.
-/

/-- Python enum `TaskPriority` (source lines 30-35). -/
inductive TaskPriority where
  | CRITICAL
  | REAL_TIME
  | HIGH
  | MEDIUM
  | LOW
deriving DecidableEq

/-- Numeric value of the enum member (`.value` in Python). -/
def TaskPriority.value : TaskPriority → Nat
  | .CRITICAL => 5
  | .REAL_TIME => 4
  | .HIGH => 3
  | .MEDIUM => 2
  | .LOW => 1

/-- Hardware simulation constant (source line 24). -/
def TOTAL_CPU_CORES : ℚ := 8

/-- Hardware simulation constant (source line 25). -/
def TOTAL_GPU_POWER : ℚ := 100.0

/-- Hardware simulation constant (source line 26). -/
def TOTAL_RAM_GB : ℚ := 16

/-- Hardware simulation constant (source line 27). -/
def MAX_ALLOCATION_PER_TASK : ℚ := 0.50

/-- Python class `HardwareStatus` (source lines 39-62). -/
structure HardwareStatus where
  name : String
  total : ℚ
  unit : String
  allocated : ℚ
  available : ℚ
  is_external : Bool
deriving DecidableEq

/-- Constructor `HardwareStatus.__init__` (source lines 41-47): `allocated = 0.0`,
`available = total_capacity - allocated`, `is_external = False`. -/
def HardwareStatus.init (name : String) (total_capacity : ℚ) (unit : String) :
    HardwareStatus :=
  { name := name, total := total_capacity, unit := unit, allocated := 0,
    available := total_capacity - 0, is_external := false }

/-- Method `HardwareStatus.update_usage` (source lines 49-52):
`allocated = max(0.0, usage)`, then `available = total - allocated`. -/
def HardwareStatus.update_usage (hw : HardwareStatus) (usage : ℚ) : HardwareStatus :=
  let a := max 0 usage
  { hw with allocated := a, available := hw.total - a }

/-- Method `AGI_Task._calculate_request` (source lines 78-94), as a function of
`self.complexity`, the only field it reads.  Each raw request is
`complexity * weight`, then scaled by the module-level capacity constant and
clamped by `MAX_ALLOCATION_PER_TASK` times that same constant.  The result is
the insertion-ordered dict `{CPU, GPU, RAM}`. -/
def calculate_request (complexity : ℚ) : List (String × ℚ) :=
  let cpu_req := complexity * 0.2
  let gpu_req := complexity * 0.1
  let ram_req := complexity * 0.5
  let cpu_req := min (cpu_req * TOTAL_CPU_CORES) (MAX_ALLOCATION_PER_TASK * TOTAL_CPU_CORES)
  let gpu_req := min (gpu_req * TOTAL_GPU_POWER) (MAX_ALLOCATION_PER_TASK * TOTAL_GPU_POWER)
  let ram_req := min (ram_req * TOTAL_RAM_GB) (MAX_ALLOCATION_PER_TASK * TOTAL_RAM_GB)
  [("CPU", cpu_req), ("GPU", gpu_req), ("RAM", ram_req)]

/-- Python class `AGI_Task` (source lines 64-102).  The wall-clock fields
`creation_time` and `start_time` are omitted (see the header comment). -/
structure AGI_Task where
  task_id : String
  name : String
  priority : TaskPriority
  complexity : ℚ
  resource_request : List (String × ℚ)
  status : String
deriving DecidableEq

/-- Dict lookup on an association list with string keys (Python `d[k]` /
`k in d` on `resource_request`). -/
def lookupAmt (k : String) : List (String × ℚ) → Option ℚ
  | [] => none
  | p :: ps => if p.1 = k then some p.2 else lookupAmt k ps

/-- Dict lookup on an association list of hardware entries (Python membership
test `name in self.external_hardware`). -/
def lookupHW (k : String) : List (String × HardwareStatus) → Option HardwareStatus
  | [] => none
  | p :: ps => if p.1 = k then some p.2 else lookupHW k ps

/-- Python class `ResourceManager` (source lines 106-190).  Field `hardware` is
the dict with the fixed keys CPU, GPU, RAM, embedded as three fields; field
`external_hardware` is the insertion-ordered dict of hot-plugged entries. -/
structure ResourceManager where
  cpu : HardwareStatus
  gpu : HardwareStatus
  ram : HardwareStatus
  external_hardware : List (String × HardwareStatus)
deriving DecidableEq

/-- Dict read `self.hardware[k]` / membership `k in self.hardware`
(keys are exactly CPU, GPU, RAM; see the header comment). -/
def ResourceManager.lookup (rm : ResourceManager) (k : String) : Option HardwareStatus :=
  if k = "CPU" then some rm.cpu
  else if k = "GPU" then some rm.gpu
  else if k = "RAM" then some rm.ram
  else none

/-- Dict write `self.hardware[k] = v` for an existing key (no key is ever
created: writes happen only for keys already present). -/
def ResourceManager.setHW (rm : ResourceManager) (k : String) (v : HardwareStatus) :
    ResourceManager :=
  if k = "CPU" then { rm with cpu := v }
  else if k = "GPU" then { rm with gpu := v }
  else if k = "RAM" then { rm with ram := v }
  else rm

/-- Constructor `ResourceManager.__init__` (source lines 111-119). -/
def initResourceManager : ResourceManager :=
  { cpu := HardwareStatus.init "CPU_Internal" TOTAL_CPU_CORES "Cores",
    gpu := HardwareStatus.init "GPU_Internal" TOTAL_GPU_POWER "%",
    ram := HardwareStatus.init "RAM_Internal" TOTAL_RAM_GB "GB",
    external_hardware := [] }

/-- Python substring containment `sub in s` (used on lines 132 and 137). -/
def strContainsSub (s sub : String) : Bool := decide (sub.data <:+: s.data)

/-- Method `ResourceManager.add_external_hardware` (source lines 121-140).
On a name collision with `hardware` or `external_hardware` it is a no-op.
Otherwise the new entry is recorded in `external_hardware` with
`is_external = True`; if the name contains "GPU" (resp. "RAM") the aggregate's
`total` is increased by `capacity` and its `name` becomes "GPU_Hybrid"
(resp. "RAM_Hybrid").  Note the source mutates only `total` and `name`: the
stored `available` field of the aggregate is not refreshed. -/
def ResourceManager.add_external_hardware (rm : ResourceManager) (name : String)
    (capacity : ℚ) (unit : String) : ResourceManager :=
  if (rm.lookup name).isSome ∨ (lookupHW name rm.external_hardware).isSome then rm
  else
    let hw := { HardwareStatus.init name capacity unit with is_external := true }
    let rm' := { rm with external_hardware := rm.external_hardware ++ [(name, hw)] }
    if strContainsSub name "GPU" then
      { rm' with gpu := { rm'.gpu with total := rm'.gpu.total + capacity, name := "GPU_Hybrid" } }
    else if strContainsSub name "RAM" then
      { rm' with ram := { rm'.ram with total := rm'.ram.total + capacity, name := "RAM_Hybrid" } }
    else rm'

/-- Phase 1 of `ResourceManager.allocate_resources` (source lines 145-158): walk
`task.resource_request.items()` building `required_resources`.  A known kind
with `hw.available < req_amount` sets `can_allocate = False` and breaks
(modelled by `none`); an unknown kind is skipped with a warning and does not
contribute to `required_resources`. -/
def checkRequests (rm : ResourceManager) : List (String × ℚ) → Option (List (String × ℚ))
  | [] => some []
  | (res_name, req_amount) :: rest =>
    match rm.lookup res_name with
    | some hw =>
      if hw.available < req_amount then none
      else (checkRequests rm rest).map (fun l => (res_name, req_amount) :: l)
    | none => checkRequests rm rest

/-- Shared shape of the two mutation loops of the resource manager: for each
`(res_name, req_amount)` in the list, if `res_name` is a tracked kind, replace
`hardware[res_name]` by `f hw req_amount`; otherwise skip the entry.
Instantiated with `f hw x = hw.update_usage (hw.allocated + x)` it is the
allocation loop of source lines 162-164, and with
`f hw x = hw.update_usage (hw.allocated - x)` the release loop of source
lines 178-181. -/
def foldUpdate (f : HardwareStatus → ℚ → HardwareStatus) (rm : ResourceManager)
    (reqs : List (String × ℚ)) : ResourceManager :=
  reqs.foldl
    (fun acc p =>
      match acc.lookup p.1 with
      | some hw => acc.setHW p.1 (f hw p.2)
      | none => acc)
    rm

/-- Method `ResourceManager.allocate_resources` (source lines 142-170).  Returns
the updated manager, the task with its mutated `status` field, and the boolean
result.  If any known kind lacks availability, no reservation at all is
performed (`can_allocate` is decided before any `update_usage` runs) and the
task becomes "Queued_Blocked"; otherwise every entry of `required_resources` is
reserved and the task becomes "Running". -/
def ResourceManager.allocate_resources (rm : ResourceManager) (task : AGI_Task) :
    ResourceManager × AGI_Task × Bool :=
  match checkRequests rm task.resource_request with
  | some required =>
    (foldUpdate (fun hw x => hw.update_usage (hw.allocated + x)) rm required,
     { task with status := "Running" }, true)
  | none => (rm, { task with status := "Queued_Blocked" }, false)

/-- Method `ResourceManager.free_resources` (source lines 172-182): refused
(no state change) unless the task's status is "Finished"; otherwise each known
kind of the task's request is released via `update_usage (allocated - req)`,
unknown kinds being skipped. -/
def ResourceManager.free_resources (rm : ResourceManager) (task : AGI_Task) :
    ResourceManager :=
  if task.status ≠ "Finished" then rm
  else foldUpdate (fun hw x => hw.update_usage (hw.allocated - x)) rm task.resource_request

/-- One reserve (`allocate_resources`) or release (`free_resources`) call, the
alphabet of call sequences quantified over by the accounting-invariant claim. -/
inductive PoolOp where
  | alloc (t : AGI_Task)
  | free (t : AGI_Task)

/-- Task argument of a pool call. -/
def PoolOp.task : PoolOp → AGI_Task
  | .alloc t => t
  | .free t => t

/-- Effect of one pool call on the resource manager. -/
def applyPoolOp (rm : ResourceManager) : PoolOp → ResourceManager
  | .alloc t => (rm.allocate_resources t).1
  | .free t => rm.free_resources t

/-- Effect of a sequence of reserve/release calls. -/
def applyPoolOps (rm : ResourceManager) (ops : List PoolOp) : ResourceManager :=
  ops.foldl applyPoolOp rm

/-- Effect of a sequence of `add_external_hardware` calls
(name, capacity, unit). -/
def applyExts (rm : ResourceManager) (es : List (String × ℚ × String)) : ResourceManager :=
  es.foldl (fun acc e => acc.add_external_hardware e.1 e.2.1 e.2.2) rm

/-- Per-resource accounting invariant.  The first two conjuncts are the
invariant claimed by the spec; the third records that the stored `available`
field never exceeds the derivable amount `total - allocated` (it is equal to it
after every `update_usage`, and can only fall behind when
`add_external_hardware` raises `total` without refreshing `available`). -/
def hwInv (hw : HardwareStatus) : Prop :=
  0 ≤ hw.allocated ∧ hw.allocated ≤ hw.total ∧ hw.available ≤ hw.total - hw.allocated

instance (hw : HardwareStatus) : Decidable (hwInv hw) := by
  unfold hwInv; infer_instance

/-- Accounting invariant for every tracked resource of the pool. -/
def rmInv (rm : ResourceManager) : Prop :=
  hwInv rm.cpu ∧ hwInv rm.gpu ∧ hwInv rm.ram

instance (rm : ResourceManager) : Decidable (rmInv rm) := by
  unfold rmInv; infer_instance

/-- Well-formedness of a task's resource request as produced by the Python
constructor: all requested amounts are nonnegative (true of
`_calculate_request` for `complexity ∈ [0,1]`) and the request's keys are
distinct (true of every Python dict). -/
def taskOk (t : AGI_Task) : Prop :=
  (∀ p ∈ t.resource_request, 0 ≤ p.2) ∧ (t.resource_request.map Prod.fst).Nodup

instance (t : AGI_Task) : Decidable (taskOk t) := by
  unfold taskOk; infer_instance

/-- Sort key order of `submit_task` (source line 210): Python's
`sorted(..., key=lambda t: t.priority.value, reverse=True)` orders by priority
value descending. -/
def prioGE (a b : AGI_Task) : Prop := b.priority.value ≤ a.priority.value

instance : DecidableRel prioGE := fun a b => Nat.decLe b.priority.value a.priority.value

instance : IsTotal AGI_Task prioGE :=
  ⟨fun a b => Nat.le_total b.priority.value a.priority.value⟩

instance : IsTrans AGI_Task prioGE :=
  ⟨fun _ _ _ h1 h2 => Nat.le_trans h2 h1⟩

/-- Python's `sorted(queue, key=lambda t: t.priority.value, reverse=True)`:
a stable sort by priority value descending, modelled by insertion sort (any two
stable sorts of the same key order produce identical output; the
claim-C3 theorem certifies sortedness and stability of this model). -/
def sortByPriorityDesc (l : List AGI_Task) : List AGI_Task :=
  l.insertionSort prioGE

/-- Python class `RealTimeScheduler` (source lines 194-251).  `running_tasks` is
the insertion-ordered dict keyed by `task_id`. -/
structure RealTimeScheduler where
  rm : ResourceManager
  task_queue : List AGI_Task
  running_tasks : List (String × AGI_Task)
  finished_tasks : List AGI_Task

/-- Method `RealTimeScheduler.submit_task` (source lines 206-211): append the
task, then re-sort the whole queue by priority descending with a stable sort. -/
def RealTimeScheduler.submit_task (s : RealTimeScheduler) (task : AGI_Task) :
    RealTimeScheduler :=
  { s with task_queue := sortByPriorityDesc (s.task_queue ++ [task]) }

/-- Step 1 of `dispatch_tasks` for one running entry (source lines 219-226):
if the completion oracle fires for this task id, set its status to "Finished",
release its resources, append it to `finished_tasks` and delete it from
`running_tasks`.  The oracle stands for the `time.time() - start_time > 0.5 or
random.random() < 0.1` heuristic of line 221, which the spec itself describes
as a test-only stand-in for an explicit completion signal. -/
def reapOne (completes : String → Bool) (s : RealTimeScheduler)
    (p : String × AGI_Task) : RealTimeScheduler :=
  if completes p.1 then
    let t := { p.2 with status := "Finished" }
    { s with rm := s.rm.free_resources t,
             finished_tasks := s.finished_tasks ++ [t],
             running_tasks := s.running_tasks.eraseP (fun q => q.1 == p.1) }
  else s

/-- Mutable state of the admission loop of `dispatch_tasks` (source lines
229-246): the resource manager, the task queue, the running dict, the sequence
of names printed by the `[RTS DISPATCHED]` log line, and `tasks_dispatched`. -/
structure AdmitState where
  rm : ResourceManager
  queue : List AGI_Task
  running : List (String × AGI_Task)
  log : List String
  dispatched : Nat

/-- Step 2 of `dispatch_tasks` (source lines 229-246): iterate over the
snapshot `list(task_queue)[:max_tasks_to_check]`; stop once two tasks have been
dispatched in this call; skip tasks whose status is neither "Pending" nor
"Queued_Blocked"; on successful allocation remove the task from the queue
(first occurrence, by identity, here by `task_id`) and record it as running;
on failure the task object's status has been set to "Queued_Blocked" by
`allocate_resources`, which the queue reflects. -/
def admitLoop (st : AdmitState) : List AGI_Task → AdmitState
  | [] => st
  | task :: rest =>
    if st.dispatched ≥ 2 then st
    else if task.status = "Pending" ∨ task.status = "Queued_Blocked" then
      if (st.rm.allocate_resources task).2.2 then
        admitLoop
          { rm := (st.rm.allocate_resources task).1,
            queue := st.queue.eraseP (fun u => u.task_id == task.task_id),
            running := st.running ++
              [((st.rm.allocate_resources task).2.1.task_id,
                (st.rm.allocate_resources task).2.1)],
            log := st.log ++ [(st.rm.allocate_resources task).2.1.name],
            dispatched := st.dispatched + 1 } rest
      else
        admitLoop
          { st with
            rm := (st.rm.allocate_resources task).1,
            queue := st.queue.map
              (fun u =>
                if u.task_id = task.task_id then (st.rm.allocate_resources task).2.1 else u) }
          rest
    else admitLoop st rest

/-- Method `RealTimeScheduler.dispatch_tasks` (source lines 213-251): reap the
running tasks the completion oracle reports as done, then run the bounded
admission loop over the first `max_tasks_to_check` queued tasks.  Returns the
new scheduler state and the ordered list of task names dispatched during this
call (the `[RTS DISPATCHED]` log). -/
def RealTimeScheduler.dispatch_tasks (s : RealTimeScheduler) (completes : String → Bool)
    (max_tasks_to_check : Nat) : RealTimeScheduler × List String :=
  let s1 := s.running_tasks.foldl (reapOne completes) s
  let st := admitLoop
    { rm := s1.rm, queue := s1.task_queue, running := s1.running_tasks,
      log := [], dispatched := 0 }
    (s1.task_queue.take max_tasks_to_check)
  ({ rm := st.rm, task_queue := st.queue, running_tasks := st.running,
     finished_tasks := s1.finished_tasks }, st.log)

/-- Completion oracle under which no running task finishes this cycle. -/
def neverCompletes : String → Bool := fun _ => false

/-- Names bound in the module namespace of `arona_resource_manager.py` when
`AGI_Task.__init__` runs: the imports of source lines 12-16 (`time`, `random`,
the four `typing` names, `deque`, `Enum`) and the module-level definitions.
Neither `uuid` (used on line 69) nor `json` (used on line 296) is among them. -/
def moduleTopLevelNames : List String :=
  ["time", "random", "Dict", "List", "Any", "Optional", "deque", "Enum",
   "ARONA_CORE_ID", "TOTAL_CPU_CORES", "TOTAL_GPU_POWER", "TOTAL_RAM_GB",
   "MAX_ALLOCATION_PER_TASK", "TaskPriority", "HardwareStatus", "AGI_Task",
   "ResourceManager", "RealTimeScheduler", "run_arona_resource_system"]

/-- Python runtime failure relevant here: an unresolvable global name. -/
inductive PyRuntimeError where
  | nameError (missing : String)
deriving DecidableEq

/-- Constructor `AGI_Task.__init__` (source lines 68-76).  Its first statement
evaluates `str(uuid.uuid4())`, which resolves the global name `uuid` against
the module namespace before anything else; on failure the constructor raises
`NameError` and no task object is produced.  `fresh_id` stands for the string
`str(uuid.uuid4())` would return if the name resolved. -/
def AGI_Task_init (fresh_id : String) (task_name : String) (priority : TaskPriority)
    (complexity : ℚ) : Except PyRuntimeError AGI_Task :=
  if moduleTopLevelNames.contains "uuid" then
    Except.ok
      { task_id := fresh_id, name := task_name, priority := priority,
        complexity := complexity, resource_request := calculate_request complexity,
        status := "Pending" }
  else Except.error (PyRuntimeError.nameError "uuid")

/-- Spec-side per-kind request formula, written from the claim's words: weight
times complexity times the pool's current total capacity for the kind, clamped
to at most half of that same capacity.  Used to compare the claimed derivation
against the source's `_calculate_request`. -/
def spec_request_entry (rm : ResourceManager) (w c : ℚ) (k : String) : ℚ :=
  match rm.lookup k with
  | some hw => min (w * c * hw.total) (MAX_ALLOCATION_PER_TASK * hw.total)
  | none => 0

lemma lookupAmt_mem {k : String} {x : ℚ} :
    ∀ {l : List (String × ℚ)}, lookupAmt k l = some x → (k, x) ∈ l
  | (a, b) :: ps, h => by
    by_cases hp : a = k
    · simp only [lookupAmt, if_pos hp] at h
      injection h with h
      subst hp; subst h
      exact List.mem_cons_self _ _
    · simp only [lookupAmt, if_neg hp] at h
      exact List.mem_cons_of_mem _ (lookupAmt_mem h)

lemma lookupAmt_isSome_of_mem {k : String} {x : ℚ} :
    ∀ {l : List (String × ℚ)}, (k, x) ∈ l → (lookupAmt k l).isSome
  | p :: ps, h => by
    by_cases hp : p.1 = k
    · simp [lookupAmt, if_pos hp]
    · rcases List.mem_cons.1 h with h | h
      · subst h; simp at hp
      · simpa [lookupAmt, if_neg hp] using lookupAmt_isSome_of_mem h

lemma lookupAmt_eq_none {k : String} :
    ∀ {l : List (String × ℚ)}, k ∉ l.map Prod.fst → lookupAmt k l = none
  | [], _ => rfl
  | p :: ps, h => by
    have h1 : p.1 ≠ k := fun e => h (by simp [e])
    have h2 : k ∉ ps.map Prod.fst := fun e => h (by simp [e])
    simp [lookupAmt, if_neg h1, lookupAmt_eq_none h2]

lemma lookup_setHW_ne (rm : ResourceManager) {k k' : String} (v : HardwareStatus)
    (h : k' ≠ k) : (rm.setHW k v).lookup k' = rm.lookup k' := by
  unfold ResourceManager.setHW ResourceManager.lookup
  split_ifs <;> simp_all

lemma lookup_setHW_self (rm : ResourceManager) {k : String} (v : HardwareStatus)
    (h : (rm.lookup k).isSome) : (rm.setHW k v).lookup k = some v := by
  unfold ResourceManager.setHW ResourceManager.lookup at *
  split_ifs at * <;> simp_all

lemma foldUpdate_nil (f : HardwareStatus → ℚ → HardwareStatus) (rm : ResourceManager) :
    foldUpdate f rm [] = rm := rfl

lemma foldUpdate_cons (f : HardwareStatus → ℚ → HardwareStatus) (rm : ResourceManager)
    (p : String × ℚ) (rest : List (String × ℚ)) :
    foldUpdate f rm (p :: rest) =
      foldUpdate f
        (match rm.lookup p.1 with
         | some hw => rm.setHW p.1 (f hw p.2)
         | none => rm) rest := rfl

lemma lookup_foldUpdate_none (f : HardwareStatus → ℚ → HardwareStatus) {k : String} :
    ∀ (reqs : List (String × ℚ)) (rm : ResourceManager), lookupAmt k reqs = none →
      (foldUpdate f rm reqs).lookup k = rm.lookup k
  | [], rm, _ => rfl
  | (k0, x0) :: rest, rm, h => by
    have h1 : ¬ k0 = k := by
      intro e; simp [lookupAmt, if_pos e] at h
    have h2 : lookupAmt k rest = none := by
      simpa [lookupAmt, if_neg h1] using h
    rw [foldUpdate_cons]
    cases hrm : rm.lookup k0 with
    | none => simp only [hrm, lookup_foldUpdate_none f rest _ h2]
    | some hw =>
      simp only [hrm, lookup_foldUpdate_none f rest _ h2]
      exact lookup_setHW_ne rm _ (fun e => h1 e.symm)

lemma lookup_foldUpdate_hw_none (f : HardwareStatus → ℚ → HardwareStatus) {k : String} :
    ∀ (reqs : List (String × ℚ)) (rm : ResourceManager), rm.lookup k = none →
      (foldUpdate f rm reqs).lookup k = none
  | [], rm, h => h
  | (k0, x0) :: rest, rm, h => by
    rw [foldUpdate_cons]
    cases hrm : rm.lookup k0 with
    | none => simp only [hrm]; exact lookup_foldUpdate_hw_none f rest rm h
    | some hw =>
      simp only [hrm]
      apply lookup_foldUpdate_hw_none f rest
      by_cases he : k = k0
      · subst he; rw [h] at hrm; cases hrm
      · rw [lookup_setHW_ne rm _ he]; exact h

lemma lookup_foldUpdate_some (f : HardwareStatus → ℚ → HardwareStatus) {k : String}
    {x : ℚ} {hw : HardwareStatus} :
    ∀ (reqs : List (String × ℚ)) (rm : ResourceManager),
      (reqs.map Prod.fst).Nodup → lookupAmt k reqs = some x → rm.lookup k = some hw →
      (foldUpdate f rm reqs).lookup k = some (f hw x)
  | [], _, _, hl, _ => by simp [lookupAmt] at hl
  | (k0, x0) :: rest, rm, hnd, hl, hrm => by
    rw [foldUpdate_cons]
    by_cases he : k0 = k
    · subst he
      have hx : x0 = x := by
        simp [lookupAmt] at hl
        exact hl
      subst hx
      have hndc := hnd
      simp only [List.map_cons] at hndc
      have hrest : lookupAmt k0 rest = none :=
        lookupAmt_eq_none (List.nodup_cons.1 hndc).1
      simp only [hrm]
      rw [lookup_foldUpdate_none f rest _ hrest]
      exact lookup_setHW_self rm _ (by simp [hrm])
    · have hl' : lookupAmt k rest = some x := by
        simpa [lookupAmt, if_neg he] using hl
      have hndc := hnd
      simp only [List.map_cons] at hndc
      have hnd' : (rest.map Prod.fst).Nodup := (List.nodup_cons.1 hndc).2
      cases hrm0 : rm.lookup k0 with
      | none =>
        simp only [hrm0]
        exact lookup_foldUpdate_some f rest rm hnd' hl' hrm
      | some hw0 =>
        simp only [hrm0]
        exact lookup_foldUpdate_some f rest _ hnd' hl'
          (by rw [lookup_setHW_ne rm _ (fun e => he e.symm)]; exact hrm)

lemma checkRequests_sublist {rm : ResourceManager} :
    ∀ {reqs required : List (String × ℚ)},
      checkRequests rm reqs = some required → required.Sublist reqs
  | [], required, h => by
    injection h with h
    rw [← h]
  | (k, x) :: rest, required, h => by
    cases hrm : rm.lookup k with
    | some hw =>
      simp only [checkRequests, hrm] at h
      by_cases hav : hw.available < x
      · simp [hav] at h
      · rw [if_neg hav] at h
        cases hch : checkRequests rm rest with
        | none => rw [hch] at h; cases h
        | some l =>
          rw [hch] at h
          injection h with h
          rw [← h]
          exact List.Sublist.cons₂ _ (checkRequests_sublist hch)
    | none =>
      simp only [checkRequests, hrm] at h
      exact List.Sublist.cons _ (checkRequests_sublist h)

lemma checkRequests_mem {rm : ResourceManager} :
    ∀ {reqs required : List (String × ℚ)}
      (_ : checkRequests rm reqs = some required) {k : String} {x : ℚ}
      (_ : (k, x) ∈ required),
      ∃ hw, rm.lookup k = some hw ∧ ¬ hw.available < x
  | [], required, h, k, x, hm => by
    injection h with h
    rw [← h] at hm
    cases hm
  | (k0, x0) :: rest, required, h, k, x, hm => by
    cases hrm : rm.lookup k0 with
    | some hw =>
      simp only [checkRequests, hrm] at h
      by_cases hav : hw.available < x0
      · simp [hav] at h
      · rw [if_neg hav] at h
        cases hch : checkRequests rm rest with
        | none => rw [hch] at h; cases h
        | some l =>
          rw [hch] at h
          injection h with h
          have h' : (k0, x0) :: l = required := h
          rw [← h'] at hm
          rcases List.mem_cons.1 hm with he | hm'
          · injection he with e1 e2
            subst e1; subst e2
            exact ⟨hw, hrm, hav⟩
          · exact checkRequests_mem hch hm'
    | none =>
      simp only [checkRequests, hrm] at h
      exact checkRequests_mem h hm

lemma checkRequests_lookupAmt {rm : ResourceManager} :
    ∀ {reqs required : List (String × ℚ)}
      (_ : checkRequests rm reqs = some required) (k : String),
      (rm.lookup k).isSome → lookupAmt k required = lookupAmt k reqs
  | [], required, h, k, _ => by
    injection h with h
    rw [← h]
  | (k0, x0) :: rest, required, h, k, hk => by
    cases hrm : rm.lookup k0 with
    | some hw =>
      simp only [checkRequests, hrm] at h
      by_cases hav : hw.available < x0
      · simp [hav] at h
      · rw [if_neg hav] at h
        cases hch : checkRequests rm rest with
        | none => rw [hch] at h; cases h
        | some l =>
          rw [hch] at h
          injection h with h
          have h' : (k0, x0) :: l = required := h
          rw [← h']
          by_cases he : k0 = k
          · simp [lookupAmt, if_pos he]
          · simp only [lookupAmt, if_neg he]
            exact checkRequests_lookupAmt hch k hk
    | none =>
      simp only [checkRequests, hrm] at h
      have he : ¬ k0 = k := by
        intro e
        rw [e] at hrm
        rw [hrm] at hk
        simp at hk
      rw [checkRequests_lookupAmt h k hk]
      simp [lookupAmt, if_neg he]

lemma checkRequests_isSome_iff {rm : ResourceManager} :
    ∀ {reqs : List (String × ℚ)},
      (checkRequests rm reqs).isSome ↔
        ∀ p ∈ reqs, ∀ hw, rm.lookup p.1 = some hw → ¬ hw.available < p.2
  | [] => by simp [checkRequests]
  | (k0, x0) :: rest => by
    cases hrm : rm.lookup k0 with
    | some hw =>
      simp only [checkRequests, hrm]
      by_cases hav : hw.available < x0
      · rw [if_pos hav]
        simp only [Option.isSome_none, Bool.false_eq_true, false_iff]
        intro hall
        exact hall (k0, x0) (List.mem_cons_self _ _) hw hrm hav
      · rw [if_neg hav]
        have hmap : (Option.map (fun l => (k0, x0) :: l) (checkRequests rm rest)).isSome
            = (checkRequests rm rest).isSome := by
          cases checkRequests rm rest <;> rfl
        rw [hmap, @checkRequests_isSome_iff rm rest]
        constructor
        · intro hall p hp hw' hhw'
          rcases List.mem_cons.1 hp with he | hm
          · subst he
            rw [hrm] at hhw'
            injection hhw' with e
            subst e
            exact hav
          · exact hall p hm hw' hhw'
        · intro hall p hp hw' hhw'
          exact hall p (List.mem_cons_of_mem _ hp) hw' hhw'
    | none =>
      simp only [checkRequests, hrm]
      rw [@checkRequests_isSome_iff rm rest]
      constructor
      · intro hall p hp hw' hhw'
        rcases List.mem_cons.1 hp with he | hm
        · subst he
          rw [hrm] at hhw'
          cases hhw'
        · exact hall p hm hw' hhw'
      · intro hall p hp hw' hhw'
        exact hall p (List.mem_cons_of_mem _ hp) hw' hhw'

lemma hwInv_update_add {hw : HardwareStatus} {x : ℚ} (h : hwInv hw) (hx : 0 ≤ x)
    (hav : ¬ hw.available < x) : hwInv (hw.update_usage (hw.allocated + x)) := by
  obtain ⟨h1, h2, h3⟩ := h
  push_neg at hav
  unfold hwInv HardwareStatus.update_usage
  simp only
  refine ⟨le_max_left _ _, ?_, le_refl _⟩
  have hax : hw.allocated + x ≤ hw.total := by linarith
  have h0t : (0 : ℚ) ≤ hw.total := le_trans h1 h2
  exact max_le h0t hax

lemma hwInv_update_sub {hw : HardwareStatus} {x : ℚ} (h : hwInv hw) (hx : 0 ≤ x) :
    hwInv (hw.update_usage (hw.allocated - x)) := by
  obtain ⟨h1, h2, h3⟩ := h
  unfold hwInv HardwareStatus.update_usage
  simp only
  refine ⟨le_max_left _ _, ?_, le_refl _⟩
  have hax : hw.allocated - x ≤ hw.total := by linarith
  have h0t : (0 : ℚ) ≤ hw.total := le_trans h1 h2
  exact max_le h0t hax

lemma rmInv_lookup {rm : ResourceManager} (h : rmInv rm) {k : String}
    {hw : HardwareStatus} (hl : rm.lookup k = some hw) : hwInv hw := by
  unfold ResourceManager.lookup at hl
  obtain ⟨h1, h2, h3⟩ := h
  split_ifs at hl <;> first
    | (injection hl with e; rw [← e]; assumption)
    | cases hl

lemma rmInv_of_lookup {rm : ResourceManager}
    (h : ∀ k hw, rm.lookup k = some hw → hwInv hw) : rmInv rm := by
  refine ⟨h "CPU" _ ?_, h "GPU" _ ?_, h "RAM" _ ?_⟩ <;> simp [ResourceManager.lookup]

lemma rmInv_allocate (rm : ResourceManager) (t : AGI_Task) (hinv : rmInv rm)
    (hok : taskOk t) : rmInv (rm.allocate_resources t).1 := by
  unfold ResourceManager.allocate_resources
  cases hch : checkRequests rm t.resource_request with
  | none => exact hinv
  | some required =>
    simp only
    apply rmInv_of_lookup
    intro k hw' hl
    cases hreq : lookupAmt k required with
    | none =>
      rw [lookup_foldUpdate_none _ _ _ hreq] at hl
      exact rmInv_lookup hinv hl
    | some x =>
      cases hrm : rm.lookup k with
      | none => rw [lookup_foldUpdate_hw_none _ _ _ hrm] at hl; cases hl
      | some hw =>
        have hnd : (required.map Prod.fst).Nodup :=
          ((checkRequests_sublist hch).map Prod.fst).nodup hok.2
        rw [lookup_foldUpdate_some _ _ _ hnd hreq hrm] at hl
        injection hl with e
        rw [← e]
        obtain ⟨hw0, hhw0, hav⟩ := checkRequests_mem hch (lookupAmt_mem hreq)
        rw [hrm] at hhw0
        injection hhw0 with e0
        have hx : 0 ≤ x :=
          hok.1 _ ((checkRequests_sublist hch).subset (lookupAmt_mem hreq))
        rw [← e0] at hav
        exact hwInv_update_add (rmInv_lookup hinv hrm) hx hav

lemma rmInv_free (rm : ResourceManager) (t : AGI_Task) (hinv : rmInv rm)
    (hok : taskOk t) : rmInv (rm.free_resources t) := by
  unfold ResourceManager.free_resources
  split_ifs with hst
  · exact hinv
  · apply rmInv_of_lookup
    intro k hw' hl
    cases hreq : lookupAmt k t.resource_request with
    | none =>
      rw [lookup_foldUpdate_none _ _ _ hreq] at hl
      exact rmInv_lookup hinv hl
    | some x =>
      cases hrm : rm.lookup k with
      | none => rw [lookup_foldUpdate_hw_none _ _ _ hrm] at hl; cases hl
      | some hw =>
        rw [lookup_foldUpdate_some _ _ _ hok.2 hreq hrm] at hl
        injection hl with e
        rw [← e]
        exact hwInv_update_sub (rmInv_lookup hinv hrm) (hok.1 _ (lookupAmt_mem hreq))

/-- Claim C1: for every resource kind tracked by the pool and every sequence of
reserve (`allocate_resources`) and release (`free_resources`) calls with
well-formed tasks, starting from any state satisfying the accounting invariant,
`0 ≤ allocated ≤ totalCapacity` holds for every tracked resource after the
sequence (hence after each call, since the statement quantifies over every
sequence and in particular every prefix). -/
theorem C1_accounting_invariant (rm : ResourceManager) (ops : List PoolOp)
    (hinv : rmInv rm) (hops : ∀ op ∈ ops, taskOk op.task) :
    rmInv (applyPoolOps rm ops) ∧
      ∀ k hw, (applyPoolOps rm ops).lookup k = some hw →
        0 ≤ hw.allocated ∧ hw.allocated ≤ hw.total := by
  have main : rmInv (applyPoolOps rm ops) := by
    induction ops generalizing rm with
    | nil => exact hinv
    | cons op rest ih =>
      have h1 : taskOk op.task := hops op (List.mem_cons_self _ _)
      have hstep : rmInv (applyPoolOp rm op) := by
        cases op with
        | alloc t => exact rmInv_allocate rm t hinv h1
        | free t => exact rmInv_free rm t hinv h1
      exact ih _ hstep (fun o ho => hops o (List.mem_cons_of_mem _ ho))
  exact ⟨main, fun k hw hl =>
    ⟨(rmInv_lookup main hl).1, (rmInv_lookup main hl).2.1⟩⟩

/-- Concrete task used by witnesses: requests 2 CPU cores and 1 GB of RAM. -/
def tWitness : AGI_Task :=
  { task_id := "w1", name := "W1", priority := TaskPriority.MEDIUM, complexity := 0.5,
    resource_request := [("CPU", 2), ("RAM", 1)], status := "Pending" }

/-- The witness task after its work has completed. -/
def tWitnessFin : AGI_Task := { tWitness with status := "Finished" }

/-- Witness for C1 at a concrete state and call sequence. -/
theorem C1_accounting_invariant_witness :
    rmInv (applyPoolOps initResourceManager
        [PoolOp.alloc tWitness, PoolOp.free tWitnessFin]) ∧
      ∀ k hw, (applyPoolOps initResourceManager
          [PoolOp.alloc tWitness, PoolOp.free tWitnessFin]).lookup k = some hw →
        0 ≤ hw.allocated ∧ hw.allocated ≤ hw.total :=
  C1_accounting_invariant _ _
    (by
      norm_num [rmInv, hwInv, initResourceManager, HardwareStatus.init,
        TOTAL_CPU_CORES, TOTAL_GPU_POWER, TOTAL_RAM_GB])
    (by
      intro op hop
      simp only [List.mem_cons, List.not_mem_nil, or_false] at hop
      rcases hop with rfl | rfl <;>
        norm_num +decide [taskOk, PoolOp.task, tWitness, tWitnessFin])

/-- Claim C2, settled against the code at the failing input: hot-plugging
"eGPU_X" (capacity 250) onto the freshly constructed pool (GPU aggregate:
total 100, allocated 0, available 100) raises the aggregate's `total` to 350
but leaves the stored `available` amount at 100 — the extra 250 is not visible
to the next availability query, contrary to the claim (it only appears after
the next `update_usage` on the GPU aggregate recomputes `available`). -/
theorem C2_hotplug_total_raised_available_stale :
    initResourceManager.gpu.total = 100 ∧
    initResourceManager.gpu.allocated = 0 ∧
    initResourceManager.gpu.available = 100 ∧
    (initResourceManager.add_external_hardware "eGPU_X" 250 "%").gpu.total = 350 ∧
    (initResourceManager.add_external_hardware "eGPU_X" 250 "%").gpu.available = 100 := by
  norm_num +decide [ResourceManager.add_external_hardware, initResourceManager,
    ResourceManager.lookup, lookupHW, strContainsSub, HardwareStatus.init, TOTAL_GPU_POWER]

lemma filter_orderedInsert_pos (p : AGI_Task → Bool) (t : AGI_Task)
    (hrel : ∀ u, p u = true → prioGE t u) (hpt : p t = true) :
    ∀ l : List AGI_Task, (l.orderedInsert prioGE t).filter p = t :: l.filter p
  | [] => by simp [List.orderedInsert, hpt]
  | u :: us => by
    by_cases h : prioGE t u
    · simp only [List.orderedInsert, if_pos h]
      simp [List.filter_cons, hpt]
    · have hpu : p u = false := by
        cases hu : p u
        · rfl
        · exact absurd (hrel u hu) h
      simp only [List.orderedInsert, if_neg h]
      simp [List.filter_cons, hpu, filter_orderedInsert_pos p t hrel hpt us]

lemma filter_orderedInsert_neg (p : AGI_Task → Bool) (t : AGI_Task) (hpt : p t = false) :
    ∀ l : List AGI_Task, (l.orderedInsert prioGE t).filter p = l.filter p
  | [] => by simp [List.orderedInsert, hpt]
  | u :: us => by
    by_cases h : prioGE t u
    · simp only [List.orderedInsert, if_pos h]
      simp [List.filter_cons, hpt]
    · simp only [List.orderedInsert, if_neg h]
      simp [List.filter_cons, filter_orderedInsert_neg p t hpt us]

/-- Stability of the queue sort: for each priority value, the subsequence of
tasks having that priority is exactly preserved, so equal-priority tasks keep
their relative (submission) order. -/
lemma sortByPriorityDesc_stable (l : List AGI_Task) (n : Nat) :
    (sortByPriorityDesc l).filter (fun t => t.priority.value == n) =
      l.filter (fun t => t.priority.value == n) := by
  induction l with
  | nil => rfl
  | cons t ts ih =>
    unfold sortByPriorityDesc at ih
    show ((List.insertionSort prioGE ts).orderedInsert prioGE t).filter _ = _
    by_cases h : t.priority.value = n
    · rw [filter_orderedInsert_pos _ t ?_ (by simp [h])]
      · rw [ih]
        simp [List.filter_cons, h]
      · intro u hu
        simp only [beq_iff_eq] at hu
        unfold prioGE
        rw [hu, ← h]
    · rw [filter_orderedInsert_neg _ t (by simp [h])]
      rw [ih]
      simp [List.filter_cons, h]

/-- The queue sort orders by priority value descending. -/
lemma sortByPriorityDesc_sorted (l : List AGI_Task) :
    List.Sorted prioGE (sortByPriorityDesc l) :=
  List.sorted_insertionSort prioGE l

/-- Task A of the C3 scenario: priority HIGH, request derived by
`_calculate_request` from complexity 0.4. -/
def taskA_C3 : AGI_Task :=
  { task_id := "A", name := "A", priority := TaskPriority.HIGH, complexity := 0.4,
    resource_request := calculate_request 0.4, status := "Pending" }

/-- Task B of the C3 scenario: priority CRITICAL, complexity 0.9. -/
def taskB_C3 : AGI_Task :=
  { taskA_C3 with
    task_id := "B", name := "B", priority := TaskPriority.CRITICAL,
    complexity := 0.9, resource_request := calculate_request 0.9 }

/-- Task C of the C3 scenario: priority HIGH, same shape as task A. -/
def taskC_C3 : AGI_Task := { taskA_C3 with task_id := "C", name := "C" }

/-- Freshly constructed scheduler over the freshly constructed pool. -/
def emptyScheduler : RealTimeScheduler :=
  { rm := initResourceManager, task_queue := [], running_tasks := [], finished_tasks := [] }

/-- Scheduler after submitting A (High), then B (Critical), then C (High). -/
def schedC3 : RealTimeScheduler :=
  ((emptyScheduler.submit_task taskA_C3).submit_task taskB_C3).submit_task taskC_C3

/-- Claim C3: `submit_task` keeps the pending queue sorted by priority value
descending with a stable sort — for every priority value, the subsequence of
tasks of that priority is preserved exactly, so equal-priority tasks keep their
submission order.  In particular, submitting A (High), B (Critical), C (High)
in that order to a fresh scheduler with ample resources leaves the queue as
B, A, C, and the dispatch admission log over the following dispatch calls
admits them in exactly that order (B and A in the first call, which is capped
at two admissions, and C in the second). -/
theorem C3_priority_fifo_ordering :
    (∀ (l : List AGI_Task) (n : Nat),
        (sortByPriorityDesc l).filter (fun t => t.priority.value == n) =
          l.filter (fun t => t.priority.value == n)) ∧
    (∀ l : List AGI_Task, List.Sorted prioGE (sortByPriorityDesc l)) ∧
    schedC3.task_queue.map (fun t => t.name) = ["B", "A", "C"] ∧
    ((schedC3.dispatch_tasks neverCompletes 5).2 ++
      (((schedC3.dispatch_tasks neverCompletes 5).1).dispatch_tasks neverCompletes 5).2)
      = ["B", "A", "C"] := by
  refine ⟨sortByPriorityDesc_stable, sortByPriorityDesc_sorted, ?_, ?_⟩ <;>
    norm_num +decide [schedC3, emptyScheduler, RealTimeScheduler.submit_task,
      sortByPriorityDesc, List.insertionSort, List.orderedInsert, prioGE,
      TaskPriority.value, taskA_C3, taskB_C3, taskC_C3,
      RealTimeScheduler.dispatch_tasks, admitLoop, reapOne, neverCompletes,
      ResourceManager.allocate_resources, checkRequests, foldUpdate,
      ResourceManager.lookup, ResourceManager.setHW, initResourceManager,
      HardwareStatus.init, HardwareStatus.update_usage, calculate_request,
      TOTAL_CPU_CORES, TOTAL_GPU_POWER, TOTAL_RAM_GB, MAX_ALLOCATION_PER_TASK,
      min_def, lookupAmt, List.eraseP_cons, max_def]

/-- Pool for the C4 scenario: CPU total 8 with 7 cores already allocated
(reached via `update_usage 7`, so `available = 1`). -/
def rmC4 : ResourceManager :=
  { initResourceManager with cpu := initResourceManager.cpu.update_usage 7 }

/-- First pending task of the C4 scenario: requests 2 CPU cores. -/
def taskT1_C4 : AGI_Task :=
  { task_id := "T1", name := "T1", priority := TaskPriority.MEDIUM, complexity := 0.5,
    resource_request := [("CPU", 2)], status := "Pending" }

/-- Second pending task of the C4 scenario: also requests 2 CPU cores. -/
def taskT2_C4 : AGI_Task := { taskT1_C4 with task_id := "T2", name := "T2" }

/-- Scheduler of the C4 scenario: both tasks pending over the CPU 7/8 pool. -/
def schedC4 : RealTimeScheduler :=
  { rm := rmC4, task_queue := [taskT1_C4, taskT2_C4], running_tasks := [],
    finished_tasks := [] }

/-- Claim C4: admission is all-or-nothing with atomic failure.  If
`allocate_resources` returns failure, the resource manager is left completely
unchanged (so every resource's allocated amount is unchanged) and the task is
left "Queued_Blocked"; on success the task becomes "Running".  In particular,
with CPU total 8 and allocated 7 and two pending tasks each requesting 2 CPU,
one dispatch call leaves both tasks blocked in the queue, admits nothing, and
leaves CPU allocated at 7 — and the scan continued past the first failing task
to the second (both ended the call blocked). -/
theorem C4_all_or_nothing_admission (rm : ResourceManager) (t : AGI_Task) :
    ((rm.allocate_resources t).2.2 = false →
        (rm.allocate_resources t).1 = rm ∧
        (rm.allocate_resources t).2.1.status = "Queued_Blocked") ∧
    ((rm.allocate_resources t).2.2 = true →
        (rm.allocate_resources t).2.1.status = "Running") ∧
    ((schedC4.dispatch_tasks neverCompletes 5).1.rm.cpu.allocated = 7 ∧
      (schedC4.dispatch_tasks neverCompletes 5).1.task_queue.map (fun u => u.status)
        = ["Queued_Blocked", "Queued_Blocked"] ∧
      (schedC4.dispatch_tasks neverCompletes 5).2 = []) := by
  refine ⟨?_, ?_, ?_⟩
  · intro h
    cases hch : checkRequests rm t.resource_request with
    | some l => simp [ResourceManager.allocate_resources, hch] at h
    | none => simp [ResourceManager.allocate_resources, hch]
  · intro h
    cases hch : checkRequests rm t.resource_request with
    | some l => simp [ResourceManager.allocate_resources, hch]
    | none => simp [ResourceManager.allocate_resources, hch] at h
  · norm_num +decide [schedC4, rmC4, taskT1_C4, taskT2_C4,
      RealTimeScheduler.dispatch_tasks, admitLoop, reapOne, neverCompletes,
      ResourceManager.allocate_resources, checkRequests, foldUpdate,
      ResourceManager.lookup, ResourceManager.setHW, initResourceManager,
      HardwareStatus.init, HardwareStatus.update_usage,
      TOTAL_CPU_CORES, TOTAL_GPU_POWER, TOTAL_RAM_GB, max_def, lookupAmt]

/-- Witness for C4: at the concrete 7/8 CPU pool and a task requesting 2 CPU,
allocation fails, leaves the pool unchanged and blocks the task. -/
theorem C4_all_or_nothing_admission_witness :
    (rmC4.allocate_resources taskT1_C4).1 = rmC4 ∧
    (rmC4.allocate_resources taskT1_C4).2.1.status = "Queued_Blocked" :=
  (C4_all_or_nothing_admission rmC4 taskT1_C4).1
    (by
      norm_num +decide [rmC4, taskT1_C4, ResourceManager.allocate_resources,
        checkRequests, ResourceManager.lookup, initResourceManager,
        HardwareStatus.init, HardwareStatus.update_usage,
        TOTAL_CPU_CORES, max_def])

lemma admitLoop_log_le (ts : List AGI_Task) : ∀ st : AdmitState,
    (admitLoop st ts).log.length ≤ st.log.length + (2 - st.dispatched) := by
  induction ts with
  | nil => intro st; simp [admitLoop]
  | cons task rest ih =>
    intro st
    unfold admitLoop
    by_cases h1 : st.dispatched ≥ 2
    · rw [if_pos h1]
      omega
    · rw [if_neg h1]
      by_cases h2 : task.status = "Pending" ∨ task.status = "Queued_Blocked"
      · rw [if_pos h2]
        by_cases hok : (st.rm.allocate_resources task).2.2 = true
        · rw [if_pos hok]
          refine le_trans (ih _) ?_
          simp only [List.length_append, List.length_cons, List.length_nil]
          omega
        · rw [if_neg hok]
          refine le_trans (ih _) ?_
          simp
      · rw [if_neg h2]
        exact ih st

/-- One of the five admissible pending tasks of the C5 scenario: requests one
CPU core, so any two of them fit easily in the fresh 8-core pool. -/
def taskP_C5 (id : String) : AGI_Task :=
  { task_id := id, name := id, priority := TaskPriority.MEDIUM, complexity := 0.1,
    resource_request := [("CPU", 1)], status := "Pending" }

/-- Scheduler of the C5 scenario: five admissible pending tasks. -/
def schedC5 : RealTimeScheduler :=
  { rm := initResourceManager,
    task_queue := [taskP_C5 "P1", taskP_C5 "P2", taskP_C5 "P3", taskP_C5 "P4", taskP_C5 "P5"],
    running_tasks := [], finished_tasks := [] }

set_option maxHeartbeats 1600000 in
/-- Claim C5: a single `dispatch_tasks` call admits at most two tasks, for
every scheduler state, completion oracle and scan bound; and with five
admissible pending tasks and ample resources one dispatch call admits exactly
two, leaving three still pending in the queue. -/
theorem C5_throughput_cap :
    (∀ (s : RealTimeScheduler) (c : String → Bool) (m : Nat),
        (s.dispatch_tasks c m).2.length ≤ 2) ∧
    (schedC5.dispatch_tasks neverCompletes 5).2.length = 2 ∧
    (schedC5.dispatch_tasks neverCompletes 5).1.task_queue.length = 3 ∧
    (schedC5.dispatch_tasks neverCompletes 5).1.task_queue.map (fun t => t.status)
      = ["Pending", "Pending", "Pending"] := by
  refine ⟨?_, ?_⟩
  · intro s c m
    unfold RealTimeScheduler.dispatch_tasks
    simp only
    exact le_trans (admitLoop_log_le _ _) (by simp)
  · norm_num +decide [schedC5, taskP_C5,
        RealTimeScheduler.dispatch_tasks, admitLoop, reapOne, neverCompletes,
        ResourceManager.allocate_resources, checkRequests, foldUpdate,
        ResourceManager.lookup, ResourceManager.setHW, initResourceManager,
        HardwareStatus.init, HardwareStatus.update_usage,
        TOTAL_CPU_CORES, TOTAL_GPU_POWER, TOTAL_RAM_GB, max_def, lookupAmt,
        List.eraseP_cons]

/-- Claim C6, counterexample: after hot-plugging "eGPU_X" (capacity 250) the
pool's GPU total is 350, yet a task created afterwards with complexity 1
requests GPU 10 = min(0.1·100, 0.5·100) — computed from the module constant
`TOTAL_GPU_POWER` = 100 — not min(0.1·350, 0.5·350) = 35, which is what the
claim's formula over the pool's total capacity as observed at creation
requires. -/
theorem C6_request_ignores_hotplug :
    (initResourceManager.add_external_hardware "eGPU_X" 250 "%").gpu.total = 350 ∧
    lookupAmt "GPU" (calculate_request 1) = some 10 ∧
    spec_request_entry (initResourceManager.add_external_hardware "eGPU_X" 250 "%")
      0.1 1 "GPU" = 35 ∧
    (10 : ℚ) ≠ 35 := by
  norm_num +decide [ResourceManager.add_external_hardware, initResourceManager,
    ResourceManager.lookup, lookupHW, strContainsSub, HardwareStatus.init,
    spec_request_entry, calculate_request, lookupAmt, min_def,
    TOTAL_GPU_POWER, TOTAL_CPU_CORES, TOTAL_RAM_GB, MAX_ALLOCATION_PER_TASK]

/-- Claim C6 as amended: for every complexity, each entry of the derived
request equals weight × complexity × capacity, clamped to at most
`MAX_ALLOCATION_PER_TASK` × capacity, where the capacity is the corresponding
module constant — equal to the freshly constructed pool's total for that kind —
rather than the pool's total at the moment of creation; hot-plugs that happen
before the task is created do not raise the basis of the derivation. -/
theorem C6_request_from_initial_totals (c : ℚ) :
    lookupAmt "CPU" (calculate_request c) =
      some (spec_request_entry initResourceManager 0.2 c "CPU") ∧
    lookupAmt "GPU" (calculate_request c) =
      some (spec_request_entry initResourceManager 0.1 c "GPU") ∧
    lookupAmt "RAM" (calculate_request c) =
      some (spec_request_entry initResourceManager 0.5 c "RAM") := by
  refine ⟨?_, ?_, ?_⟩ <;>
    · simp only [calculate_request, lookupAmt, spec_request_entry,
        ResourceManager.lookup, initResourceManager, HardwareStatus.init,
        if_pos, if_neg, reduceIte]
      norm_num +decide [TOTAL_CPU_CORES, TOTAL_GPU_POWER, TOTAL_RAM_GB,
        MAX_ALLOCATION_PER_TASK]
      congr 1
      ring

lemma add_external_total_ge (rm : ResourceManager) (name : String) (cap : ℚ)
    (unit : String) (hcap : 0 ≤ cap) :
    rm.cpu.total ≤ (rm.add_external_hardware name cap unit).cpu.total ∧
    rm.gpu.total ≤ (rm.add_external_hardware name cap unit).gpu.total ∧
    rm.ram.total ≤ (rm.add_external_hardware name cap unit).ram.total := by
  unfold ResourceManager.add_external_hardware
  split_ifs <;> refine ⟨?_, ?_, ?_⟩ <;> simp <;> linarith

lemma applyExts_total_ge (es : List (String × ℚ × String))
    (hnn : ∀ e ∈ es, 0 ≤ e.2.1) : ∀ rm : ResourceManager,
    rm.cpu.total ≤ (applyExts rm es).cpu.total ∧
    rm.gpu.total ≤ (applyExts rm es).gpu.total ∧
    rm.ram.total ≤ (applyExts rm es).ram.total := by
  induction es with
  | nil => intro rm; exact ⟨le_refl _, le_refl _, le_refl _⟩
  | cons e rest ih =>
    intro rm
    have h1 := add_external_total_ge rm e.1 e.2.1 e.2.2 (hnn e (List.mem_cons_self _ _))
    have h2 := ih (fun x hx => hnn x (List.mem_cons_of_mem _ hx)) (rm.add_external_hardware e.1 e.2.1 e.2.2)
    exact ⟨le_trans h1.1 h2.1, le_trans h1.2.1 h2.2.1, le_trans h1.2.2 h2.2.2⟩

/-- Claim C7: no entry of a derived resource request ever exceeds half of the
pool's total capacity for its kind — for every complexity (the clamp makes the
bound unconditional), and for the pool in any state reachable from
construction by hot-plugging external hardware of nonnegative capacity (the
initial totals equal the module constants used by the clamp, and hot-plug only
raises totals). -/
theorem C7_allocation_ceiling (c : ℚ) (es : List (String × ℚ × String))
    (hnn : ∀ e ∈ es, 0 ≤ e.2.1) (k : String) (v : ℚ)
    (hv : lookupAmt k (calculate_request c) = some v)
    (hw : HardwareStatus) (hhw : (applyExts initResourceManager es).lookup k = some hw) :
    v ≤ MAX_ALLOCATION_PER_TASK * hw.total := by
  have htot := applyExts_total_ge es hnn initResourceManager
  have hmax : (0 : ℚ) ≤ MAX_ALLOCATION_PER_TASK := by norm_num [MAX_ALLOCATION_PER_TASK]
  simp only [calculate_request, lookupAmt] at hv
  unfold ResourceManager.lookup at hhw
  split_ifs at hhw with hk1 hk2 hk3
  · injection hhw with he
    subst hk1
    simp +decide at hv
    rw [← hv, ← he]
    refine le_trans (min_le_right _ _) ?_
    refine mul_le_mul_of_nonneg_left ?_ hmax
    simpa [initResourceManager, HardwareStatus.init] using htot.1
  · injection hhw with he
    subst hk2
    simp +decide at hv
    rw [← hv, ← he]
    refine le_trans (min_le_right _ _) ?_
    refine mul_le_mul_of_nonneg_left ?_ hmax
    simpa [initResourceManager, HardwareStatus.init] using htot.2.1
  · injection hhw with he
    subst hk3
    simp +decide at hv
    rw [← hv, ← he]
    refine le_trans (min_le_right _ _) ?_
    refine mul_le_mul_of_nonneg_left ?_ hmax
    simpa [initResourceManager, HardwareStatus.init] using htot.2.2

/-- Witness for C7: after hot-plugging "eGPU_X" (250), a complexity-1 task's
GPU request (10) is at most half of the grown GPU total (350). -/
theorem C7_allocation_ceiling_witness :
    (10 : ℚ) ≤ MAX_ALLOCATION_PER_TASK *
      ({ name := "GPU_Hybrid", total := 350, unit := "%", allocated := 0,
         available := 100, is_external := false } : HardwareStatus).total :=
  C7_allocation_ceiling 1 [("eGPU_X", 250, "%")]
    (by norm_num)
    "GPU" 10
    (by
      norm_num +decide [calculate_request, lookupAmt, TOTAL_GPU_POWER, TOTAL_CPU_CORES,
        MAX_ALLOCATION_PER_TASK, min_def])
    _
    (by
      norm_num +decide [applyExts, ResourceManager.add_external_hardware,
        initResourceManager, ResourceManager.lookup, lookupHW, strContainsSub,
        HardwareStatus.init, TOTAL_GPU_POWER])

/-- Claim C8: for every pool state satisfying the accounting invariant and
every well-formed task whose whole request can be reserved, reserving
(`allocate_resources`, which succeeds by hypothesis) and then releasing
(`free_resources` on the finished task) restores every tracked resource's
allocated amount exactly to its pre-reserve value. -/
theorem C8_reserve_release_roundtrip (rm : ResourceManager) (t : AGI_Task)
    (hinv : rmInv rm) (hok : taskOk t)
    (hsucc : (rm.allocate_resources t).2.2 = true) :
    ∀ (k : String) (hw hw' : HardwareStatus), rm.lookup k = some hw →
      (((rm.allocate_resources t).1).free_resources
          { (rm.allocate_resources t).2.1 with status := "Finished" }).lookup k = some hw' →
      hw'.allocated = hw.allocated := by
  intro k hw hw' hlk hlk'
  cases hch : checkRequests rm t.resource_request with
  | none => simp [ResourceManager.allocate_resources, hch] at hsucc
  | some required =>
    have hreq : lookupAmt k required = lookupAmt k t.resource_request :=
      checkRequests_lookupAmt hch k (by simp [hlk])
    have hndreq : (required.map Prod.fst).Nodup :=
      ((checkRequests_sublist hch).map Prod.fst).nodup hok.2
    simp only [ResourceManager.allocate_resources, hch] at hlk' hsucc
    simp only [ResourceManager.free_resources] at hlk'
    rw [if_neg (by simp)] at hlk'
    cases hx : lookupAmt k t.resource_request with
    | none =>
      rw [hx] at hreq
      rw [lookup_foldUpdate_none _ _ _ hx, lookup_foldUpdate_none _ _ _ hreq, hlk] at hlk'
      injection hlk' with e
      rw [← e]
    | some x =>
      rw [hx] at hreq
      have hx0 : 0 ≤ x := hok.1 _ (lookupAmt_mem hx)
      have ha0 : 0 ≤ hw.allocated := (rmInv_lookup hinv hlk).1
      have hl1 : (foldUpdate (fun hw x => hw.update_usage (hw.allocated + x)) rm required).lookup k
          = some (hw.update_usage (hw.allocated + x)) :=
        lookup_foldUpdate_some _ _ _ hndreq hreq hlk
      rw [lookup_foldUpdate_some _ _ _ hok.2 hx hl1] at hlk'
      injection hlk' with e
      rw [← e]
      simp only [HardwareStatus.update_usage]
      have h1 : max 0 (hw.allocated + x) = hw.allocated + x :=
        max_eq_right (by linarith)
      rw [h1]
      simp only [add_sub_cancel_right]
      exact max_eq_right ha0

/-- Witness for C8: on the fresh pool, reserving the witness task's request
(2 CPU, 1 RAM) and releasing it after completion leaves CPU allocated exactly
at its pre-reserve value 0. -/
theorem C8_reserve_release_roundtrip_witness :
    ({ name := "CPU_Internal", total := 8, unit := "Cores", allocated := 0,
       available := 8, is_external := false } : HardwareStatus).allocated =
      (HardwareStatus.init "CPU_Internal" TOTAL_CPU_CORES "Cores").allocated :=
  C8_reserve_release_roundtrip initResourceManager tWitness
    (by
      norm_num [rmInv, hwInv, initResourceManager, HardwareStatus.init,
        TOTAL_CPU_CORES, TOTAL_GPU_POWER, TOTAL_RAM_GB])
    (by norm_num +decide [taskOk, tWitness])
    (by
      norm_num +decide [tWitness, ResourceManager.allocate_resources, checkRequests,
        ResourceManager.lookup, initResourceManager, HardwareStatus.init,
        TOTAL_CPU_CORES, TOTAL_RAM_GB, TOTAL_GPU_POWER])
    "CPU" _ _
    (by norm_num +decide [ResourceManager.lookup, initResourceManager, HardwareStatus.init,
      TOTAL_CPU_CORES])
    (by
      norm_num +decide [tWitness, ResourceManager.allocate_resources, checkRequests,
        ResourceManager.free_resources, foldUpdate, ResourceManager.lookup,
        ResourceManager.setHW, initResourceManager, HardwareStatus.init,
        HardwareStatus.update_usage, TOTAL_CPU_CORES, TOTAL_RAM_GB, TOTAL_GPU_POWER,
        max_def, lookupAmt])

/-- Claim C9: unknown resource kinds in a task's request are skipped and never
block admission.  A task is admitted (allocation succeeds) if and only if
every entry whose kind the pool tracks fits in that kind's availability —
entries with untracked kinds impose no condition — and on success each tracked
kind's allocated amount grows by exactly the amount the request names for it
(zero for tracked kinds the request does not mention; untracked kinds are
never reserved at all, the pool having no entry for them). -/
theorem C9_unknown_kind_never_blocks (rm : ResourceManager) (t : AGI_Task)
    (hinv : rmInv rm) (hok : taskOk t) :
    ((rm.allocate_resources t).2.2 = true ↔
      ∀ p ∈ t.resource_request, ∀ hw, rm.lookup p.1 = some hw → p.2 ≤ hw.available) ∧
    ((rm.allocate_resources t).2.2 = true →
      ∀ (k : String) (hw : HardwareStatus), rm.lookup k = some hw →
        ∃ hw', ((rm.allocate_resources t).1).lookup k = some hw' ∧
          hw'.allocated = hw.allocated +
            (match lookupAmt k t.resource_request with
             | some x => x
             | none => 0)) := by
  constructor
  · rw [show ((rm.allocate_resources t).2.2 = true) =
        ((checkRequests rm t.resource_request).isSome = true) from ?_]
    · rw [@checkRequests_isSome_iff rm t.resource_request]
      constructor
      · intro h p hp hw hhw
        exact not_lt.1 (h p hp hw hhw)
      · intro h p hp hw hhw
        exact not_lt.2 (h p hp hw hhw)
    · cases hch : checkRequests rm t.resource_request with
      | some l => simp [ResourceManager.allocate_resources, hch]
      | none => simp [ResourceManager.allocate_resources, hch]
  · intro hsucc k hw hlk
    cases hch : checkRequests rm t.resource_request with
    | none => simp [ResourceManager.allocate_resources, hch] at hsucc
    | some required =>
      have hreq : lookupAmt k required = lookupAmt k t.resource_request :=
        checkRequests_lookupAmt hch k (by simp [hlk])
      have hndreq : (required.map Prod.fst).Nodup :=
        ((checkRequests_sublist hch).map Prod.fst).nodup hok.2
      simp only [ResourceManager.allocate_resources, hch]
      cases hx : lookupAmt k t.resource_request with
      | none =>
        rw [hx] at hreq
        refine ⟨hw, ?_, by ring⟩
        rw [lookup_foldUpdate_none _ _ _ hreq]
        exact hlk
      | some x =>
        rw [hx] at hreq
        have hx0 : 0 ≤ x := hok.1 _ (lookupAmt_mem hx)
        have ha0 : 0 ≤ hw.allocated := (rmInv_lookup hinv hlk).1
        refine ⟨hw.update_usage (hw.allocated + x), ?_, ?_⟩
        · exact lookup_foldUpdate_some _ _ _ hndreq hreq hlk
        · simp only [HardwareStatus.update_usage]
          exact max_eq_right (by linarith)

/-- Task of the C9 witness: one tracked kind (1 CPU core) and one kind the
pool does not track ("XPU", a huge amount). -/
def tUnknown_C9 : AGI_Task :=
  { task_id := "U", name := "U", priority := TaskPriority.LOW, complexity := 0.2,
    resource_request := [("CPU", 1), ("XPU", 999)], status := "Pending" }

/-- Witness for C9: the task asking for 1 CPU and 999 of the untracked kind
"XPU" is still admitted by the fresh pool. -/
theorem C9_unknown_kind_never_blocks_witness :
    (initResourceManager.allocate_resources tUnknown_C9).2.2 = true :=
  (C9_unknown_kind_never_blocks initResourceManager tUnknown_C9
    (by
      norm_num [rmInv, hwInv, initResourceManager, HardwareStatus.init,
        TOTAL_CPU_CORES, TOTAL_GPU_POWER, TOTAL_RAM_GB])
    (by norm_num +decide [taskOk, tUnknown_C9])).1.mpr
    (by
      norm_num +decide [tUnknown_C9, ResourceManager.lookup, initResourceManager,
        HardwareStatus.init, TOTAL_CPU_CORES, List.forall_mem_cons])

/-- Claim C10: every call of the public task constructor fails.  The first
statement of `AGI_Task.__init__` resolves the global name `uuid`, which the
module never imports (source lines 12-16), so a `NameError` is raised before
any task object is produced, regardless of the arguments. -/
theorem C10_constructor_raises_nameerror (fresh_id task_name : String)
    (priority : TaskPriority) (complexity : ℚ) :
    AGI_Task_init fresh_id task_name priority complexity =
      Except.error (PyRuntimeError.nameError "uuid") := by
  simp +decide [AGI_Task_init, moduleTopLevelNames]
